import Mathlib

/-!
In-memory item service (`main.go`).

A shallow embedding of the HTTP handlers of `main.go` and of the package-level
state they share (`items`, `mutex`, `nextID`), followed by the properties of
the service that are established on it.

Conventions of the embedding:

* Go strings are Lean strings, the map `items` is an association list with
  unique keys, the Go slice built by `getItems` keeps the difference between
  the nil slice and an allocated one.
* `nextID` is a Go `int`; it is an integer kept in the 64-bit two's-complement
  range, `nextID++` wraps around.
* `encoding/json` and `net/http` are libraries: a request carries the outcome
  of `Decode` on its body, a response body is a sequence of written payloads
  (plain text or a JSON value).
* Every handler logs the calls it makes on the mutex, the request body and the
  response writer, in program order.
-/

namespace ItemService

/-! ## Data model -/

/-- The record type `Item` of `main.go`. -/
structure Item where
  ID : String
  Name : String
deriving DecidableEq, Repr

/-- The type `map[string]Item` of the package-level variable `items`. -/
abbrev ItemMap := AList (fun _ : String => Item)

/-- Number of bits of a Go `int` on the 64-bit targets. -/
def intSize : Nat := 64

/-- Two's-complement wrap-around of an integer into the range of Go's `int`. -/
def wrapInt (x : Int) : Int :=
  (x + 2 ^ (intSize - 1)) % 2 ^ intSize - 2 ^ (intSize - 1)

/-- The package-level variables `items` and `nextID`. -/
structure Store where
  items : ItemMap
  nextID : Int
deriving DecidableEq

/-- The state at process start: `make(map[string]Item)` and `nextID = 1`. -/
def Store.initial : Store := ⟨∅, 1⟩

/-- The result of `fmt.Sprintf("%d", n)`: the decimal numeral of `n`, with a
leading minus sign when `n` is negative. -/
def sprintfD (n : Int) : String := toString n

/-! ## JSON values and Go slices -/

/-- JSON values, as far as the service produces them. -/
inductive JSON where
  | null : JSON
  | string (s : String) : JSON
  | array (elems : List JSON) : JSON
  | object (fields : List (String × JSON)) : JSON

/-- A Go slice of `T`: `none` is the nil slice (`var s []T`), `some l` an
allocated slice holding the elements `l`. -/
abbrev GoSlice (T : Type) := Option (List T)

/-- The builtin `append(s, x)`: appending to the nil slice allocates. -/
def GoSlice.append {T : Type} (s : GoSlice T) (x : T) : GoSlice T :=
  match s with
  | none => some [x]
  | some l => some (l ++ [x])

/-- The elements of a slice; the nil slice has none. -/
def GoSlice.elems {T : Type} (s : GoSlice T) : List T :=
  match s with
  | none => []
  | some l => l

/-- What `encoding/json` makes of an `Item`, following its field tags. -/
def Item.toJSON (it : Item) : JSON :=
  .object [("id", .string it.ID), ("name", .string it.Name)]

/-- What `encoding/json` makes of a `[]Item`: a nil slice is encoded as the
JSON value `null`, any other slice as an array. -/
def encodeItems (s : GoSlice Item) : JSON :=
  match s with
  | none => .null
  | some l => .array (l.map Item.toJSON)

/-! ## Requests, responses and the log of a handler -/

/-- An HTTP request as the handlers see it: `r.Method`, `r.URL.Path`, and the
outcome of `json.NewDecoder(r.Body).Decode(&item)` on a zero `Item`
(the error, or the decoded value). -/
structure Request where
  Method : String
  Path : String
  Body : Except String Item

/-- One `Write` on the response writer. -/
inductive Payload where
  | text (s : String) : Payload
  | json (v : JSON) : Payload

/-- The `http.ResponseWriter` of one request: the header map, the status code
once the header has been written, and what has been written to the body. -/
structure ResponseWriter where
  header : List (String × String)
  status : Option Nat
  body : List Payload

/-- The calls a handler makes that are of interest to the locking discipline. -/
inductive Event where
  | lock : Event
  | unlock : Event
  | decodeBody : Event
  | setHeader : Event
  | writeHeader : Event
  | writeBody : Event
deriving DecidableEq, Repr

/-- The state a handler runs on: the package-level store, the response writer
of the request, and the log of calls made so far. -/
structure Exec where
  store : Store
  w : ResponseWriter
  log : List Event

/-- A fresh response writer on the store `s`. -/
def Exec.start (s : Store) : Exec := ⟨s, ⟨[], none, []⟩, []⟩

/-- The call `mutex.Lock()`. -/
def Exec.mutexLock (e : Exec) : Exec := { e with log := e.log ++ [.lock] }

/-- The call `mutex.Unlock()`. -/
def Exec.mutexUnlock (e : Exec) : Exec := { e with log := e.log ++ [.unlock] }

/-- The call `json.NewDecoder(r.Body).Decode(&item)`. -/
def Exec.decode (e : Exec) (r : Request) : Exec × Except String Item :=
  ({ e with log := e.log ++ [.decodeBody] }, r.Body)

/-- The call `w.Header().Set(k, v)`. -/
def Exec.headerSet (e : Exec) (k v : String) : Exec :=
  { e with
    w := { e.w with header := (k, v) :: e.w.header.filter (fun h => h.1 ≠ k) }
    log := e.log ++ [.setHeader] }

/-- The call `w.WriteHeader(code)`: the first status code written stays. -/
def Exec.writeHeader (e : Exec) (code : Nat) : Exec :=
  { e with
    w := { e.w with status := some (e.w.status.getD code) }
    log := e.log ++ [.writeHeader] }

/-- A `Write` on the response writer: status 200 is sent first when no header
has been written yet. -/
def Exec.write (e : Exec) (p : Payload) : Exec :=
  { e with
    w := { e.w with status := some (e.w.status.getD 200), body := e.w.body ++ [p] }
    log := e.log ++ [.writeBody] }

/-- The call `json.NewEncoder(w).Encode(v)`, `v` already turned into JSON. -/
def Exec.encode (e : Exec) (v : JSON) : Exec := e.write (.json v)

/-- The call `http.Error(w, msg, code)`. -/
def httpError (e : Exec) (msg : String) (code : Nat) : Exec :=
  let e := e.headerSet "Content-Type" "text/plain; charset=utf-8"
  let e := e.headerSet "X-Content-Type-Options" "nosniff"
  let e := e.writeHeader code
  e.write (.text (msg ++ "\n"))

/-! ## The handlers -/

/-- The handler `getItems`; the deferred `mutex.Unlock()` runs on return. The
`range` loop visits the entries of the map in the order of the association
list, which stands for the order Go happens to choose. -/
def getItems (e : Exec) : Exec :=
  let e := e.mutexLock
  let itemList : GoSlice Item :=
    e.store.items.entries.foldl (fun acc kv => acc.append kv.2) none
  let e := e.headerSet "Content-Type" "application/json"
  let e := e.encode (encodeItems itemList)
  e.mutexUnlock

/-- The handler `createItem`. -/
def createItem (e : Exec) (r : Request) : Exec :=
  match e.decode r with
  | (e, .error err) => httpError e err 400
  | (e, .ok newItem) =>
    let e := e.mutexLock
    let newItem := { newItem with ID := sprintfD e.store.nextID }
    let e := { e with store := { e.store with nextID := wrapInt (e.store.nextID + 1) } }
    let e := { e with store := { e.store with items := e.store.items.insert newItem.ID newItem } }
    let e := e.mutexUnlock
    let e := e.writeHeader 201
    e.encode newItem.toJSON

/-- The handler `getItem`. -/
def getItem (e : Exec) (id : String) : Exec :=
  let e := e.mutexLock
  let found := e.store.items.lookup id
  let e := e.mutexUnlock
  match found with
  | none => httpError e "Item not found" 404
  | some item =>
    let e := e.headerSet "Content-Type" "application/json"
    e.encode item.toJSON

/-- The handler `updateItem`; the deferred `mutex.Unlock()` runs on each of
the two returns that follow `mutex.Lock()`. -/
def updateItem (e : Exec) (r : Request) (id : String) : Exec :=
  match e.decode r with
  | (e, .error err) => httpError e err 400
  | (e, .ok updatedItem) =>
    let e := e.mutexLock
    match e.store.items.lookup id with
    | none =>
      let e := httpError e "Item not found" 404
      e.mutexUnlock
    | some _ =>
      let updatedItem := { updatedItem with ID := id }
      let e := { e with store := { e.store with items := e.store.items.insert id updatedItem } }
      let e := e.headerSet "Content-Type" "application/json"
      let e := e.encode updatedItem.toJSON
      e.mutexUnlock

/-- The handler `deleteItem`; the deferred `mutex.Unlock()` runs on each of
the two returns. -/
def deleteItem (e : Exec) (id : String) : Exec :=
  let e := e.mutexLock
  match e.store.items.lookup id with
  | none =>
    let e := httpError e "Item not found" 404
    e.mutexUnlock
  | some _ =>
    let e := { e with store := { e.store with items := e.store.items.erase id } }
    let e := e.writeHeader 204
    e.mutexUnlock

/-- The handler `itemsHandler`, registered for the path `/items`. -/
def itemsHandler (e : Exec) (r : Request) : Exec :=
  if r.Method = "GET" then getItems e
  else if r.Method = "POST" then createItem e r
  else httpError e "Method not allowed" 405

/-- The handler `itemHandler`, registered for the subtree `/items/`: the id is
`r.URL.Path[len("/items/"):]`. -/
def itemHandler (e : Exec) (r : Request) : Exec :=
  let id := r.Path.drop "/items/".length
  if r.Method = "GET" then getItem e id
  else if r.Method = "PUT" then updateItem e r id
  else if r.Method = "DELETE" then deleteItem e id
  else httpError e "Method not allowed" 405

/-- The test `strings.HasPrefix(s, p)`. -/
def hasPrefix (s p : String) : Bool := p.toList.isPrefixOf s.toList

/-- The dispatch of `http.DefaultServeMux` with the two patterns registered in
`main`: `/items` matches that path only, `/items/` matches every path it is a
prefix of, and any other path is answered by the mux itself with 404, no
handler being run. Paths are the canonical ones the mux hands to a handler. -/
def serveMux (e : Exec) (r : Request) : Exec :=
  if r.Path = "/items" then itemsHandler e r
  else if hasPrefix r.Path "/items/" then itemHandler e r
  else httpError e "404 page not found" 404

/-- One request served on the store `s`, with a fresh response writer. -/
def serve (s : Store) (r : Request) : Exec := serveMux (Exec.start s) r

/-- The store after the requests `rs`, served one after the other in the
order in which the mutex serialises them. -/
def run (s : Store) : List Request → Store
  | [] => s
  | r :: rs => run (serve s r).store rs

/-- The list request, `GET /items`; it has no body, which no handler on its
way decodes. -/
def listReq : Request := ⟨"GET", "/items", .error "EOF"⟩

/-- The create request, `POST /items`, with the outcome of decoding its body. -/
def createReq (body : Except String Item) : Request := ⟨"POST", "/items", body⟩

/-- The get request for `id`, `GET /items/{id}`; it has no body. -/
def getReq (id : String) : Request := ⟨"GET", "/items/" ++ id, .error "EOF"⟩

/-- The update request for `id`, `PUT /items/{id}`, with the outcome of decoding
its body. -/
def updateReq (id : String) (body : Except String Item) : Request :=
  ⟨"PUT", "/items/" ++ id, body⟩

/-- The delete request for `id`, `DELETE /items/{id}`; it has no body. -/
def deleteReq (id : String) : Request := ⟨"DELETE", "/items/" ++ id, .error "EOF"⟩

/-! ## Reading a response -/

/-- The member `k` of a JSON object. -/
def JSON.field (k : String) : JSON → Option JSON
  | .object fs => fs.lookup k
  | _ => none

/-- The `id` of the record a response carries, when its body is one JSON
object with a string member `id`. -/
def responseID (w : ResponseWriter) : Option String :=
  match w.body with
  | [.json v] =>
    match v.field "id" with
    | some (.string i) => some i
    | _ => none
  | _ => none

/-- The id the service assigned in answering `r` on the store `s`: the id of
the record in a 201 response. -/
def assignedID (s : Store) (r : Request) : Option String :=
  if (serve s r).w.status = some 201 then responseID (serve s r).w else none

/-- The ids assigned in answering the requests `rs` one after the other from
the store `s`, in order. -/
def assignedIDs (s : Store) : List Request → List String
  | [] => []
  | r :: rs => (assignedID s r).toList ++ assignedIDs (serve s r).store rs

/-- Whether no request body is decoded and nothing is written to the response
while the mutex is held, in a log of calls; `held` tells whether the mutex is
held at the start of the log. -/
def noIOWhileLocked (held : Bool) : List Event → Bool
  | [] => true
  | .lock :: es => noIOWhileLocked true es
  | .unlock :: es => noIOWhileLocked false es
  | .setHeader :: es => noIOWhileLocked held es
  | .decodeBody :: es => !held && noIOWhileLocked held es
  | .writeHeader :: es => !held && noIOWhileLocked held es
  | .writeBody :: es => !held && noIOWhileLocked held es

/-- Value of a decimal numeral read left to right. -/
def numeralValue (cs : List Char) : Nat := cs.foldl (fun a c => 10 * a + (c.toNat - 48)) 0

/-- Whether `r` is a create whose body decodes: a POST on `/items` for which
`Decode` returns no error. -/
def isCreate (r : Request) : Bool :=
  r.Path = "/items" && r.Method = "POST" && r.Body.isOk

/-- The largest value of a Go `int`. -/
def maxInt : Int := 2 ^ (intSize - 1) - 1

/-- Whether the counter stays within the range of `int` while the requests `rs`
are served one after the other from the store `s`: `nextID++` never runs on
the largest `int`, so that the counter counts as an unbounded integer would. -/
def noOverflow (s : Store) : List Request → Bool
  | [] => true
  | r :: rs => (!isCreate r || decide (s.nextID + 1 ≤ maxInt)) && noOverflow (serve s r).store rs

/-- The id `createItem` hands out when `j` creates have gone before it since
process start: the numeral of the counter, which started at 1 and has been
incremented `j` times. -/
def nthID (j : Nat) : String := sprintfD (wrapInt (1 + (j : Int)))

/-- The store has seen `k` creates: the counter stands at `1 + k` (wrapped), and
every key of the map was handed out by one of these creates. -/
def Counted (k : Nat) (s : Store) : Prop :=
  s.nextID = wrapInt (1 + (k : Int)) ∧ ∀ key : String, key ∈ s.items → ∃ j, j < k ∧ key = nthID j

/-- Every record is stored under its own `ID`. -/
def KeyedByID (s : Store) : Prop :=
  ∀ (k : String) (v : Item), s.items.lookup k = some v → v.ID = k

/-- The store after a create that decoded the name `name`. -/
def Store.created (s : Store) (name : String) : Store :=
  ⟨s.items.insert (sprintfD s.nextID) ⟨sprintfD s.nextID, name⟩, wrapInt (s.nextID + 1)⟩

/-! ## Decimal numerals -/

theorem toDigitsCore_append (f : Nat) : ∀ (n : Nat) (ds : List Char),
    Nat.toDigitsCore 10 f n ds = Nat.toDigitsCore 10 f n [] ++ ds := by
  induction f with
  | zero => intro n ds; simp [Nat.toDigitsCore]
  | succ f ih =>
    intro n ds
    simp only [Nat.toDigitsCore]
    split_ifs with h
    · simp
    · rw [ih (n / 10) (_ :: ds), ih (n / 10) [_]]
      simp

theorem digitChar_value (k : Nat) (h : k < 10) : (Nat.digitChar k).toNat - 48 = k := by
  interval_cases k <;> rfl

theorem digitChar_ne_minus (k : Nat) (h : k < 10) : Nat.digitChar k ≠ '-' := by
  interval_cases k <;> decide

theorem numeralValue_toDigitsCore (f : Nat) : ∀ n : Nat, n < f →
    numeralValue (Nat.toDigitsCore 10 f n []) = n := by
  induction f with
  | zero => intro n h; omega
  | succ f ih =>
    intro n h
    simp only [Nat.toDigitsCore]
    split_ifs with h0
    · have : n < 10 := by omega
      simp [numeralValue, digitChar_value, Nat.mod_eq_of_lt this, this]
    · rw [toDigitsCore_append]
      have hlt : n / 10 < f := by omega
      have := ih (n / 10) hlt
      simp only [numeralValue] at this ⊢
      rw [List.foldl_append, this]
      simp [digitChar_value, Nat.mod_lt]
      omega

theorem minus_not_mem_toDigitsCore (f : Nat) : ∀ n : Nat,
    '-' ∉ Nat.toDigitsCore 10 f n [] := by
  induction f with
  | zero => intro n; simp [Nat.toDigitsCore]
  | succ f ih =>
    intro n
    have hd : Nat.digitChar (n % 10) ≠ '-' := digitChar_ne_minus _ (Nat.mod_lt _ (by decide))
    simp only [Nat.toDigitsCore]
    split_ifs with h0
    · simp [hd.symm]
    · rw [toDigitsCore_append]
      simp [ih, hd.symm]

theorem toDigits_ne_nil (n : Nat) : Nat.toDigits 10 n ≠ [] := by
  simp only [Nat.toDigits, Nat.toDigitsCore]
  split_ifs with h0
  · simp
  · rw [toDigitsCore_append]; simp

theorem natRepr_injective (a b : Nat) (h : Nat.repr a = Nat.repr b) : a = b := by
  have h1 : Nat.toDigitsCore 10 (a + 1) a [] = Nat.toDigitsCore 10 (b + 1) b [] :=
    congrArg String.data h
  have ha := numeralValue_toDigitsCore (a + 1) a (by omega)
  have hb := numeralValue_toDigitsCore (b + 1) b (by omega)
  rw [h1] at ha
  omega

theorem intToString_injective (a b : Int) (h : toString a = toString b) : a = b := by
  cases a with
  | ofNat m =>
    cases b with
    | ofNat k =>
      have : Nat.repr m = Nat.repr k := h
      rw [natRepr_injective m k this]
    | negSucc k =>
      exfalso
      have h1 : (toString (Int.ofNat m)).data = (toString (Int.negSucc k)).data := by rw [h]
      have h2 : (toString (Int.ofNat m)).data = Nat.toDigits 10 m := rfl
      have h3 : (toString (Int.negSucc k)).data = '-' :: Nat.toDigits 10 (k + 1) := rfl
      rw [h2, h3] at h1
      have := minus_not_mem_toDigitsCore (m + 1) m
      simp only [Nat.toDigits] at h1
      rw [h1] at this
      simp at this
  | negSucc m =>
    cases b with
    | ofNat k =>
      exfalso
      have h1 : (toString (Int.ofNat k)).data = (toString (Int.negSucc m)).data := by rw [h]
      have h2 : (toString (Int.ofNat k)).data = Nat.toDigits 10 k := rfl
      have h3 : (toString (Int.negSucc m)).data = '-' :: Nat.toDigits 10 (m + 1) := rfl
      rw [h2, h3] at h1
      have := minus_not_mem_toDigitsCore (k + 1) k
      simp only [Nat.toDigits] at h1
      rw [h1] at this
      simp at this
    | negSucc k =>
      have h1 : (toString (Int.negSucc m)).data = (toString (Int.negSucc k)).data := by rw [h]
      have h3 : (toString (Int.negSucc k)).data = '-' :: (Nat.repr (k + 1)).data := rfl
      have h4 : (toString (Int.negSucc m)).data = '-' :: (Nat.repr (m + 1)).data := rfl
      rw [h3, h4] at h1
      have h5 : Nat.repr (m + 1) = Nat.repr (k + 1) := by
        apply String.ext
        simpa using h1
      have := natRepr_injective _ _ h5
      have : m = k := by omega
      rw [this]

theorem intToString_ne_empty (a : Int) : toString a ≠ "" := by
  intro h
  have h1 : (toString a).data = [] := by rw [h]
  cases a with
  | ofNat m =>
    have h2 : (toString (Int.ofNat m)).data = Nat.toDigits 10 m := rfl
    rw [h2] at h1
    exact toDigits_ne_nil m h1
  | negSucc m =>
    have h3 : (toString (Int.negSucc m)).data = '-' :: Nat.toDigits 10 (m + 1) := rfl
    rw [h3] at h1
    simp at h1

theorem sprintfD_injective (a b : Int) (h : sprintfD a = sprintfD b) : a = b :=
  intToString_injective a b h

theorem sprintfD_ne_empty (a : Int) : sprintfD a ≠ "" := intToString_ne_empty a

/-! ## Wrap-around of the counter -/

theorem wrapInt_succ (x : Int) : wrapInt (wrapInt x + 1) = wrapInt (x + 1) := by
  simp only [wrapInt, intSize]
  norm_num
  omega

theorem wrapInt_inj (i j : Nat) (hi : i < 2 ^ 64) (hj : j < 2 ^ 64)
    (h : wrapInt (1 + i) = wrapInt (1 + j)) : i = j := by
  simp only [wrapInt, intSize] at h
  norm_num at h hi hj
  omega

/-! ## Paths -/

theorem itemPath_drop (id : String) : ("/items/" ++ id).drop "/items/".length = id := by
  rw [String.drop_eq]
  rfl

theorem itemPath_ne (id : String) : "/items/" ++ id ≠ "/items" := by
  intro h
  have := congrArg String.length h
  have h7 : "/items/".length = 7 := by decide
  have h6 : "/items".length = 6 := by decide
  rw [String.length_append, h7, h6] at this
  omega

theorem itemPath_hasPrefix (id : String) : hasPrefix ("/items/" ++ id) "/items/" = true := by
  simp [hasPrefix, List.isPrefixOf_iff_prefix]

/-! ## What the mux hands to which handler -/

theorem serve_listReq (s : Store) : serve s listReq = getItems (Exec.start s) := by
  simp [serve, serveMux, listReq, itemsHandler]

theorem serve_createReq (s : Store) (b : Except String Item) :
    serve s (createReq b) = createItem (Exec.start s) (createReq b) := by
  simp [serve, serveMux, createReq, itemsHandler]

theorem serve_getReq (s : Store) (id : String) :
    serve s (getReq id) = getItem (Exec.start s) id := by
  simp [serve, serveMux, getReq, itemHandler, itemPath_drop, itemPath_ne, itemPath_hasPrefix]

theorem serve_updateReq (s : Store) (id : String) (b : Except String Item) :
    serve s (updateReq id b) = updateItem (Exec.start s) (updateReq id b) id := by
  simp [serve, serveMux, updateReq, itemHandler, itemPath_drop, itemPath_ne, itemPath_hasPrefix]

theorem serve_deleteReq (s : Store) (id : String) :
    serve s (deleteReq id) = deleteItem (Exec.start s) id := by
  simp [serve, serveMux, deleteReq, itemHandler, itemPath_drop, itemPath_ne, itemPath_hasPrefix]

/-! ## The effect of one request on the store -/

theorem serve_store_cases (s : Store) (r : Request) :
    (isCreate r = false ∧
      ((serve s r).store = s
      ∨ (∃ (id : String) (it old : Item), s.items.lookup id = some old
          ∧ (serve s r).store = ⟨s.items.insert id ⟨id, it.Name⟩, s.nextID⟩)
      ∨ (∃ (id : String) (old : Item), s.items.lookup id = some old
          ∧ (serve s r).store = ⟨s.items.erase id, s.nextID⟩)))
    ∨ (∃ it : Item, isCreate r = true ∧ r.Body = .ok it
        ∧ (serve s r).store = s.created it.Name) := by
  unfold isCreate
  by_cases h1 : r.Path = "/items"
  · by_cases h3 : r.Method = "GET"
    · left
      refine ⟨by simp [h3], Or.inl ?_⟩
      simp [serve, serveMux, itemsHandler, h1, h3, getItems, Exec.encode, Exec.write,
        Exec.headerSet, Exec.mutexLock, Exec.mutexUnlock, Exec.start]
    · by_cases h4 : r.Method = "POST"
      · rcases hb : r.Body with err | it
        · left
          refine ⟨by simp [Except.isOk, Except.toBool], Or.inl ?_⟩
          simp [serve, serveMux, itemsHandler, h1, h4, createItem, Exec.decode, hb, httpError,
            Exec.write, Exec.writeHeader, Exec.headerSet, Exec.start]
        · right
          refine ⟨it, by simp [h1, h4, Except.isOk, Except.toBool], rfl, ?_⟩
          simp [serve, serveMux, itemsHandler, h1, h4, createItem, Exec.decode, hb,
            Exec.write, Exec.writeHeader, Exec.encode, Exec.mutexLock, Exec.mutexUnlock,
            Exec.start, Store.created]
      · left
        refine ⟨by simp [h4], Or.inl ?_⟩
        simp [serve, serveMux, itemsHandler, h1, h3, h4, httpError, Exec.write,
          Exec.writeHeader, Exec.headerSet, Exec.start]
  · left
    refine ⟨by simp [h1], ?_⟩
    by_cases h2 : hasPrefix r.Path "/items/" = true
    · by_cases h3 : r.Method = "GET"
      · left
        rcases hl : s.items.lookup (r.Path.drop "/items/".length) with _ | old
        · simp [serve, serveMux, itemHandler, h1, h2, h3, getItem, hl, httpError, Exec.write,
            Exec.writeHeader, Exec.headerSet, Exec.start, Exec.mutexLock, Exec.mutexUnlock]
        · simp [serve, serveMux, itemHandler, h1, h2, h3, getItem, hl, Exec.write,
            Exec.encode, Exec.headerSet, Exec.start, Exec.mutexLock, Exec.mutexUnlock]
      · by_cases h4 : r.Method = "PUT"
        · rcases hb : r.Body with err | it
          · left
            simp [serve, serveMux, itemHandler, h1, h2, h4, updateItem, Exec.decode, hb,
              httpError, Exec.write, Exec.writeHeader, Exec.headerSet, Exec.start]
          · rcases hl : s.items.lookup (r.Path.drop "/items/".length) with _ | old
            · left
              simp [serve, serveMux, itemHandler, h1, h2, h4, updateItem, Exec.decode, hb,
                httpError, Exec.write, Exec.writeHeader, Exec.headerSet, Exec.start,
                Exec.mutexLock, Exec.mutexUnlock, hl]
            · right; left
              refine ⟨_, it, old, hl, ?_⟩
              simp [serve, serveMux, itemHandler, h1, h2, h4, updateItem, Exec.decode, hb,
                Exec.write, Exec.encode, Exec.headerSet, Exec.start, Exec.mutexLock,
                Exec.mutexUnlock, hl]
        · by_cases h5 : r.Method = "DELETE"
          · rcases hl : s.items.lookup (r.Path.drop "/items/".length) with _ | old
            · left
              simp [serve, serveMux, itemHandler, h1, h2, h5, deleteItem, httpError,
                Exec.write, Exec.writeHeader, Exec.headerSet, Exec.start, Exec.mutexLock,
                Exec.mutexUnlock, hl]
            · right; right
              refine ⟨_, old, hl, ?_⟩
              simp [serve, serveMux, itemHandler, h1, h2, h5, deleteItem, Exec.writeHeader,
                Exec.start, Exec.mutexLock, Exec.mutexUnlock, hl]
          · left
            simp [serve, serveMux, itemHandler, h1, h2, h3, h4, h5, httpError, Exec.write,
              Exec.writeHeader, Exec.headerSet, Exec.start]
    · left
      simp [serve, serveMux, h1, h2, httpError, Exec.write, Exec.writeHeader,
        Exec.headerSet, Exec.start]

/-! ## The id a request is given -/

theorem assignedID_eq (s : Store) (r : Request) :
    assignedID s r = if isCreate r then some (sprintfD s.nextID) else none := by
  unfold assignedID isCreate
  by_cases h1 : r.Path = "/items"
  · by_cases h3 : r.Method = "GET"
    · simp [serve, serveMux, itemsHandler, h1, h3, getItems, Exec.encode, Exec.write,
        Exec.headerSet, Exec.mutexLock, Exec.mutexUnlock, Exec.start]
    · by_cases h4 : r.Method = "POST"
      · rcases hb : r.Body with err | it
        · simp [serve, serveMux, itemsHandler, h1, h4, createItem, Exec.decode, hb, httpError,
            Exec.write, Exec.writeHeader, Exec.headerSet, Exec.start, Except.isOk,
            Except.toBool]
        · simp [serve, serveMux, itemsHandler, h1, h4, createItem, Exec.decode, hb,
            Exec.write, Exec.writeHeader, Exec.encode, Exec.mutexLock, Exec.mutexUnlock,
            Exec.start, Except.isOk, Except.toBool, responseID, Item.toJSON, JSON.field,
            List.lookup]
      · simp [serve, serveMux, itemsHandler, h1, h3, h4, httpError, Exec.write,
          Exec.writeHeader, Exec.headerSet, Exec.start]
  · by_cases h2 : hasPrefix r.Path "/items/" = true
    · by_cases h3 : r.Method = "GET"
      · rcases hl : s.items.lookup (r.Path.drop "/items/".length) with _ | old
        · simp [serve, serveMux, itemHandler, h1, h2, h3, getItem, hl, httpError, Exec.write,
            Exec.writeHeader, Exec.headerSet, Exec.start, Exec.mutexLock, Exec.mutexUnlock]
        · simp [serve, serveMux, itemHandler, h1, h2, h3, getItem, hl, Exec.write,
            Exec.encode, Exec.headerSet, Exec.start, Exec.mutexLock, Exec.mutexUnlock]
      · by_cases h4 : r.Method = "PUT"
        · rcases hb : r.Body with err | it
          · simp [serve, serveMux, itemHandler, h1, h2, h4, updateItem, Exec.decode, hb,
              httpError, Exec.write, Exec.writeHeader, Exec.headerSet, Exec.start]
          · rcases hl : s.items.lookup (r.Path.drop "/items/".length) with _ | old
            · simp [serve, serveMux, itemHandler, h1, h2, h4, updateItem, Exec.decode, hb,
                httpError, Exec.write, Exec.writeHeader, Exec.headerSet, Exec.start,
                Exec.mutexLock, Exec.mutexUnlock, hl]
            · simp [serve, serveMux, itemHandler, h1, h2, h4, updateItem, Exec.decode, hb,
                Exec.write, Exec.encode, Exec.headerSet, Exec.start, Exec.mutexLock,
                Exec.mutexUnlock, hl]
        · by_cases h5 : r.Method = "DELETE"
          · rcases hl : s.items.lookup (r.Path.drop "/items/".length) with _ | old
            · simp [serve, serveMux, itemHandler, h1, h2, h5, deleteItem, httpError,
                Exec.write, Exec.writeHeader, Exec.headerSet, Exec.start, Exec.mutexLock,
                Exec.mutexUnlock, hl]
            · simp [serve, serveMux, itemHandler, h1, h2, h5, deleteItem, Exec.writeHeader,
                Exec.start, Exec.mutexLock, Exec.mutexUnlock, hl]
          · simp [serve, serveMux, itemHandler, h1, h2, h3, h4, h5, httpError, Exec.write,
              Exec.writeHeader, Exec.headerSet, Exec.start]
    · simp [serve, serveMux, h1, h2, httpError, Exec.write, Exec.writeHeader,
        Exec.headerSet, Exec.start]

/-! ## Counting the creates -/

theorem counted_initial : Counted 0 Store.initial := by
  refine ⟨by decide, ?_⟩
  intro key hk
  exact absurd hk (AList.not_mem_empty key)

theorem nthID_inj (i j : Nat) (hi : i < 2 ^ intSize) (hj : j < 2 ^ intSize)
    (h : nthID i = nthID j) : i = j :=
  wrapInt_inj i j hi hj (sprintfD_injective _ _ h)

theorem counted_serve (s : Store) (r : Request) (k : Nat) (h : Counted k s) :
    Counted (k + if isCreate r then 1 else 0) (serve s r).store := by
  obtain ⟨hn, hkeys⟩ := h
  rcases serve_store_cases s r with ⟨hc, hs | ⟨id, it, old, hl, hs⟩ | ⟨id, old, hl, hs⟩⟩ |
    ⟨it, hc, _, hs⟩
  · rw [hs, hc]; exact ⟨hn, hkeys⟩
  · rw [hs, hc]
    refine ⟨hn, ?_⟩
    intro key hkey
    rw [AList.mem_insert] at hkey
    rcases hkey with rfl | hkey
    · exact hkeys _ (AList.lookup_isSome.mp (by rw [hl]; rfl))
    · exact hkeys key hkey
  · rw [hs, hc]
    refine ⟨hn, ?_⟩
    intro key hkey
    rw [AList.mem_erase] at hkey
    exact hkeys key hkey.2
  · rw [hs, hc]
    refine ⟨?_, ?_⟩
    · show wrapInt (s.nextID + 1) = _
      rw [hn, wrapInt_succ]
      congr 1
    · intro key hkey
      simp only [Store.created] at hkey
      rw [AList.mem_insert] at hkey
      rcases hkey with rfl | hkey
      · exact ⟨k, by simp, by rw [hn]; rfl⟩
      · obtain ⟨j, hj, e⟩ := hkeys key hkey
        exact ⟨j, by simp; omega, e⟩

theorem counted_run (rs : List Request) : ∀ (s : Store) (k : Nat), Counted k s →
    Counted (k + rs.countP isCreate) (run s rs)
      ∧ assignedIDs s rs = (List.range' k (rs.countP isCreate)).map nthID := by
  induction rs with
  | nil => intro s k h; exact ⟨by simpa using h, by simp [assignedIDs]⟩
  | cons r rs ih =>
    intro s k h
    have hstep := counted_serve s r k h
    obtain ⟨h1, h2⟩ := ih _ _ hstep
    rw [List.countP_cons]
    by_cases hc : isCreate r = true
    · simp only [hc, if_true] at h1 h2 ⊢
      refine ⟨by simpa [run, Nat.add_assoc, Nat.add_comm 1] using h1, ?_⟩
      simp only [assignedIDs, assignedID_eq, hc, if_true, h2, Option.toList]
      rw [List.range'_succ]
      simp [nthID, h.1]
    · simp only [hc] at h1 h2 ⊢
      refine ⟨by simpa [run] using h1, ?_⟩
      simp only [assignedIDs, assignedID_eq, hc, h2, Option.toList]
      simp

theorem wrapInt_of_lt (k : Nat) (h : k + 1 < 2 ^ (intSize - 1)) :
    wrapInt (1 + (k : Int)) = 1 + (k : Int) := by
  simp only [wrapInt, intSize] at h ⊢
  norm_num at h ⊢
  omega

theorem noOverflow_count (rs : List Request) : ∀ (s : Store) (k : Nat), Counted k s →
    k + 1 < 2 ^ (intSize - 1) → noOverflow s rs = true →
    k + rs.countP isCreate + 1 < 2 ^ (intSize - 1) := by
  induction rs with
  | nil => intro s k _ hk _; simpa using hk
  | cons r rs ih =>
    intro s k hc hk h
    simp only [noOverflow, Bool.and_eq_true, Bool.or_eq_true, Bool.not_eq_true',
      decide_eq_true_eq] at h
    obtain ⟨hr, hrest⟩ := h
    have hstep := counted_serve s r k hc
    rw [List.countP_cons]
    by_cases hcr : isCreate r = true
    · simp only [hcr, if_true] at hstep ⊢
      have hlt : s.nextID + 1 ≤ maxInt := by
        rcases hr with hr | hr
        · rw [hcr] at hr; exact absurd hr (by decide)
        · exact hr
      rw [hc.1, wrapInt_of_lt k hk] at hlt
      have hk1 : k + 1 + 1 < 2 ^ (intSize - 1) := by
        simp only [maxInt, intSize] at hlt ⊢
        norm_num at hlt ⊢
        omega
      have := ih _ (k + 1) hstep hk1 hrest
      omega
    · simp only [hcr] at hstep ⊢
      have := ih _ k (by simpa using hstep) hk hrest
      simpa using this

theorem noOverflow_of_count (rs : List Request) : ∀ (s : Store) (k : Nat), Counted k s →
    k + rs.countP isCreate + 1 < 2 ^ (intSize - 1) → noOverflow s rs = true := by
  induction rs with
  | nil => intro s k _ _; rfl
  | cons r rs ih =>
    intro s k hc hk
    rw [List.countP_cons] at hk
    have hstep := counted_serve s r k hc
    simp only [noOverflow, Bool.and_eq_true, Bool.or_eq_true, Bool.not_eq_true',
      decide_eq_true_eq]
    by_cases hcr : isCreate r = true
    · simp only [hcr, if_true] at hstep hk
      refine ⟨Or.inr ?_, ih _ (k + 1) hstep (by omega)⟩
      rw [hc.1, wrapInt_of_lt k (by omega)]
      simp only [maxInt, intSize] at hk ⊢
      norm_num at hk ⊢
      omega
    · simp only [hcr] at hstep hk
      exact ⟨Or.inl (by simpa using hcr), ih _ k (by simpa using hstep) (by simpa using hk)⟩

theorem ids_distinct_of_count (rs : List Request)
    (h : rs.countP isCreate ≤ 2 ^ intSize) :
    (assignedIDs Store.initial rs).Nodup
      ∧ (assignedIDs Store.initial rs).length = rs.countP isCreate
      ∧ ∀ (pre post : List Request) (r : Request), rs = pre ++ r :: post →
          isCreate r = true →
          ∃ id : String, assignedID (run Store.initial pre) r = some id
            ∧ id ∉ (run Store.initial pre).items
            ∧ id ∉ assignedIDs Store.initial pre := by
  obtain ⟨_, hids⟩ := counted_run rs Store.initial 0 counted_initial
  refine ⟨?_, by simp [hids], ?_⟩
  · rw [hids]
    apply List.Nodup.map_on _ (@List.nodup_range' 0 (rs.countP isCreate) 1 (by decide))
    intro x hx y hy hxy
    rw [List.mem_range'_1] at hx hy
    exact nthID_inj x y (by omega) (by omega) hxy
  · intro pre post r hrs hr
    obtain ⟨⟨hn, hkeys⟩, hpre⟩ := counted_run pre Store.initial 0 counted_initial
    have hlt : pre.countP isCreate < 2 ^ intSize := by
      rw [hrs, List.countP_append, List.countP_cons, hr] at h
      simp only [if_true] at h
      omega
    refine ⟨nthID (0 + pre.countP isCreate), ?_, ?_, ?_⟩
    · rw [assignedID_eq, hr, if_pos rfl, hn]; rfl
    · intro hmem
      obtain ⟨j, hj, e⟩ := hkeys _ hmem
      have := nthID_inj _ _ (by omega) (by omega) e
      omega
    · intro hmem
      rw [hpre, List.mem_map] at hmem
      obtain ⟨j, hj, e⟩ := hmem
      rw [List.mem_range'_1] at hj
      have := nthID_inj _ _ (by omega) (by omega) e
      omega

/-! ## Uniqueness of the assigned ids -/

/-- C1: along any sequence of requests served one at a time from the initial
store (empty map, `nextID = 1`), the counter staying within the range of `int`,
every create with a well-formed body is given an id; that id is not a key of
the map before the call and differs from the id given by every earlier create
of the sequence, whether or not the record was deleted since; the ids given
are pairwise distinct, one for each such create. -/
theorem createItem_ids_unique (rs : List Request)
    (h : noOverflow Store.initial rs = true) :
    (assignedIDs Store.initial rs).Nodup
      ∧ (assignedIDs Store.initial rs).length = rs.countP isCreate
      ∧ ∀ (pre post : List Request) (r : Request), rs = pre ++ r :: post →
          isCreate r = true →
          ∃ id : String, assignedID (run Store.initial pre) r = some id
            ∧ id ∉ (run Store.initial pre).items
            ∧ id ∉ assignedIDs Store.initial pre := by
  have hcount := noOverflow_count rs Store.initial 0 counted_initial (by decide) h
  apply ids_distinct_of_count
  simp only [intSize] at hcount ⊢
  norm_num at hcount ⊢
  omega

/-- An instance of the uniqueness of ids: three creates with a delete and a
rejected create in between. -/
theorem createItem_ids_unique_witness :
    noOverflow Store.initial
        [createReq (.ok ⟨"9", "pen"⟩), createReq (.ok ⟨"", "ink"⟩), deleteReq "1",
          createReq (.error "EOF"), createReq (.ok ⟨"1", "pen"⟩)] = true
      ∧ (assignedIDs Store.initial
          [createReq (.ok ⟨"9", "pen"⟩), createReq (.ok ⟨"", "ink"⟩), deleteReq "1",
            createReq (.error "EOF"), createReq (.ok ⟨"1", "pen"⟩)]).Nodup :=
  ⟨by decide, (createItem_ids_unique _ (by decide)).1⟩

/-! ## The five operations on an arbitrary store -/

theorem get_found (s : Store) (id : String) (it : Item) (h : s.items.lookup id = some it) :
    (serve s (getReq id)).store = s ∧ (serve s (getReq id)).w.status = some 200
      ∧ (serve s (getReq id)).w.body = [.json it.toJSON] := by
  simp [serve_getReq, getItem, h, Exec.encode, Exec.write, Exec.headerSet, Exec.mutexLock,
    Exec.mutexUnlock, Exec.start]

theorem get_missing (s : Store) (id : String) (h : s.items.lookup id = none) :
    (serve s (getReq id)).store = s ∧ (serve s (getReq id)).w.status = some 404
      ∧ (serve s (getReq id)).w.body = [.text "Item not found\n"] := by
  simp [serve_getReq, getItem, h, httpError, Exec.write, Exec.writeHeader, Exec.headerSet,
    Exec.mutexLock, Exec.mutexUnlock, Exec.start]

theorem delete_found (s : Store) (id : String) (it : Item) (h : s.items.lookup id = some it) :
    (serve s (deleteReq id)).store = ⟨s.items.erase id, s.nextID⟩
      ∧ (serve s (deleteReq id)).w.status = some 204
      ∧ (serve s (deleteReq id)).w.body = [] := by
  simp [serve_deleteReq, deleteItem, h, Exec.writeHeader, Exec.mutexLock, Exec.mutexUnlock,
    Exec.start]

theorem delete_missing (s : Store) (id : String) (h : s.items.lookup id = none) :
    (serve s (deleteReq id)).store = s ∧ (serve s (deleteReq id)).w.status = some 404
      ∧ (serve s (deleteReq id)).w.body = [.text "Item not found\n"] := by
  simp [serve_deleteReq, deleteItem, h, httpError, Exec.write, Exec.writeHeader,
    Exec.headerSet, Exec.mutexLock, Exec.mutexUnlock, Exec.start]

theorem update_found (s : Store) (id : String) (body old : Item)
    (h : s.items.lookup id = some old) :
    (serve s (updateReq id (.ok body))).store = ⟨s.items.insert id ⟨id, body.Name⟩, s.nextID⟩
      ∧ (serve s (updateReq id (.ok body))).w.status = some 200
      ∧ (serve s (updateReq id (.ok body))).w.body = [.json (Item.toJSON ⟨id, body.Name⟩)] := by
  rw [serve_updateReq]
  simp [updateItem, updateReq, Exec.decode, h, Exec.encode, Exec.write,
    Exec.headerSet, Exec.mutexLock, Exec.mutexUnlock, Exec.start]

theorem update_missing (s : Store) (id : String) (body : Item)
    (h : s.items.lookup id = none) :
    (serve s (updateReq id (.ok body))).store = s
      ∧ (serve s (updateReq id (.ok body))).w.status = some 404
      ∧ (serve s (updateReq id (.ok body))).w.body = [.text "Item not found\n"] := by
  rw [serve_updateReq]
  simp [updateItem, updateReq, Exec.decode, h, httpError, Exec.write,
    Exec.writeHeader, Exec.headerSet, Exec.mutexLock, Exec.mutexUnlock, Exec.start]

theorem create_ok (s : Store) (body : Item) :
    (serve s (createReq (.ok body))).store = s.created body.Name
      ∧ (serve s (createReq (.ok body))).w.status = some 201
      ∧ (serve s (createReq (.ok body))).w.body
          = [.json (Item.toJSON ⟨sprintfD s.nextID, body.Name⟩)] := by
  rw [serve_createReq]
  simp [createItem, createReq, Exec.decode, Exec.encode, Exec.write,
    Exec.writeHeader, Exec.mutexLock, Exec.mutexUnlock, Exec.start, Store.created]

theorem created_lookup (s : Store) (name : String) :
    (s.created name).items.lookup (sprintfD s.nextID) = some ⟨sprintfD s.nextID, name⟩ := by
  simp [Store.created]

/-! ## Records are stored under their own id -/

theorem keyedByID_serve (s : Store) (r : Request) (h : KeyedByID s) :
    KeyedByID (serve s r).store := by
  rcases serve_store_cases s r with ⟨_, hs | ⟨id, it, old, _, hs⟩ | ⟨id, old, _, hs⟩⟩ |
    ⟨it, _, _, hs⟩
  · rw [hs]; exact h
  · rw [hs]
    intro k v hk
    by_cases e : k = id
    · subst e
      simp only [AList.lookup_insert, Option.some.injEq] at hk
      rw [← hk]
    · simp only [AList.lookup_insert_ne e] at hk
      exact h k v hk
  · rw [hs]
    intro k v hk
    by_cases e : k = id
    · subst e
      simp [AList.lookup_erase] at hk
    · simp only [AList.lookup_erase_ne e] at hk
      exact h k v hk
  · rw [hs]
    intro k v hk
    simp only [Store.created] at hk
    by_cases e : k = sprintfD s.nextID
    · subst e
      simp only [AList.lookup_insert, Option.some.injEq] at hk
      rw [← hk]
    · simp only [AList.lookup_insert_ne e] at hk
      exact h k v hk

theorem keyedByID_run (rs : List Request) : ∀ s : Store, KeyedByID s → KeyedByID (run s rs) := by
  induction rs with
  | nil => intro s h; exact h
  | cons r rs ih => intro s h; exact ih _ (keyedByID_serve s r h)

/-- C2: in every store reached from the initial one by any sequence of
requests, whatever their methods, path ids and bodies, a record stored under
the key `k` has `k` as its `ID`. -/
theorem stored_record_id_eq_key (rs : List Request) (k : String) (v : Item)
    (h : (run Store.initial rs).items.lookup k = some v) : v.ID = k :=
  keyedByID_run rs Store.initial
    (fun k v hk => by simp [Store.initial, AList.lookup_empty] at hk) k v h

/-- An instance of the key invariant: a create and an update whose bodies
carry ids of their own. -/
theorem stored_record_id_eq_key_witness :
    (run Store.initial [createReq (.ok ⟨"42", "pen"⟩), updateReq "1" (.ok ⟨"7", "ink"⟩)]).items.lookup
        "1" = some ⟨"1", "ink"⟩
      ∧ (⟨"1", "ink"⟩ : Item).ID = "1" :=
  ⟨by decide, stored_record_id_eq_key
    [createReq (.ok ⟨"42", "pen"⟩), updateReq "1" (.ok ⟨"7", "ink"⟩)] "1" ⟨"1", "ink"⟩ (by decide)⟩

/-! ## Create, then get -/

/-- C3: on every store, a create whose body decodes to the name `x` and to any
id `bodyID` responds 201 with the record made of the id the store assigns (the
numeral of `nextID`, not `bodyID`) and of `x`, and a get of that id served right
after responds 200 with the same record. -/
theorem create_then_get (s : Store) (bodyID x : String) :
    (serve s (createReq (.ok ⟨bodyID, x⟩))).w.status = some 201
      ∧ (serve s (createReq (.ok ⟨bodyID, x⟩))).w.body
          = [.json (Item.toJSON ⟨sprintfD s.nextID, x⟩)]
      ∧ assignedID s (createReq (.ok ⟨bodyID, x⟩)) = some (sprintfD s.nextID)
      ∧ (serve (serve s (createReq (.ok ⟨bodyID, x⟩))).store
            (getReq (sprintfD s.nextID))).w.status = some 200
      ∧ (serve (serve s (createReq (.ok ⟨bodyID, x⟩))).store
            (getReq (sprintfD s.nextID))).w.body
          = [.json (Item.toJSON ⟨sprintfD s.nextID, x⟩)] := by
  obtain ⟨hs, hst, hb⟩ := create_ok s ⟨bodyID, x⟩
  obtain ⟨_, gst, gb⟩ := get_found (s.created x) (sprintfD s.nextID) _ (created_lookup s x)
  refine ⟨hst, hb, ?_, ?_, ?_⟩
  · rw [assignedID_eq]
    simp [isCreate, createReq, Except.isOk, Except.toBool]
  · rw [hs]; exact gst
  · rw [hs]; exact gb

/-! ## Update -/

/-- C4: when `id` is a key of the map, an update on the path id `id` whose body
decodes to the name `y` and to any id `bodyID` responds 200 with the record
`{id, y}`, stores that record under `id`, leaves the set of keys and every other
record as they were, and a get of `id` served right after returns `{id, y}`; the
whole outcome is the same for every `bodyID`. -/
theorem update_keeps_path_id (s : Store) (id bodyID y : String) (h : id ∈ s.items) :
    (serve s (updateReq id (.ok ⟨bodyID, y⟩))).w.status = some 200
      ∧ (serve s (updateReq id (.ok ⟨bodyID, y⟩))).w.body = [.json (Item.toJSON ⟨id, y⟩)]
      ∧ (serve s (updateReq id (.ok ⟨bodyID, y⟩))).store.items.lookup id = some ⟨id, y⟩
      ∧ (∀ k : String, k ∈ (serve s (updateReq id (.ok ⟨bodyID, y⟩))).store.items ↔ k ∈ s.items)
      ∧ (∀ k : String, k ≠ id →
          (serve s (updateReq id (.ok ⟨bodyID, y⟩))).store.items.lookup k = s.items.lookup k)
      ∧ (serve s (updateReq id (.ok ⟨bodyID, y⟩))).store.nextID = s.nextID
      ∧ (serve (serve s (updateReq id (.ok ⟨bodyID, y⟩))).store (getReq id)).w.status
          = some 200
      ∧ (serve (serve s (updateReq id (.ok ⟨bodyID, y⟩))).store (getReq id)).w.body
          = [.json (Item.toJSON ⟨id, y⟩)]
      ∧ (∀ otherID : String, serve s (updateReq id (.ok ⟨otherID, y⟩))
          = serve s (updateReq id (.ok ⟨bodyID, y⟩))) := by
  obtain ⟨old, hold⟩ := Option.isSome_iff_exists.mp (AList.lookup_isSome.mpr h)
  obtain ⟨hs, hst, hb⟩ := update_found s id ⟨bodyID, y⟩ old hold
  have hl : (⟨s.items.insert id ⟨id, y⟩, s.nextID⟩ : Store).items.lookup id = some ⟨id, y⟩ := by
    simp
  obtain ⟨_, gst, gb⟩ := get_found ⟨s.items.insert id ⟨id, y⟩, s.nextID⟩ id _ hl
  refine ⟨hst, hb, ?_, ?_, ?_, ?_, ?_, ?_, ?_⟩
  · rw [hs]; exact hl
  · intro k
    rw [hs]
    simp only [AList.mem_insert]
    constructor
    · rintro (rfl | hk)
      · exact h
      · exact hk
    · exact Or.inr
  · intro k hk
    rw [hs]
    exact AList.lookup_insert_ne hk
  · rw [hs]
  · rw [hs]; exact gst
  · rw [hs]; exact gb
  · intro otherID
    rw [serve_updateReq, serve_updateReq]
    simp [updateItem, updateReq, Exec.decode, hold]

/-- An instance of the update property: the record created first is updated
with a body that names another id. -/
theorem update_keeps_path_id_witness :
    "1" ∈ (run Store.initial [createReq (.ok ⟨"", "pen"⟩)]).items
      ∧ (serve (run Store.initial [createReq (.ok ⟨"", "pen"⟩)])
          (updateReq "1" (.ok ⟨"2", "pencil"⟩))).w.body
          = [.json (Item.toJSON ⟨"1", "pencil"⟩)] :=
  ⟨by decide, (update_keeps_path_id (run Store.initial [createReq (.ok ⟨"", "pen"⟩)])
    "1" "2" "pencil" (by decide)).2.1⟩

/-! ## Delete -/

/-- C5: when `id` is a key of the map, a delete of `id` responds 204 with an
empty body and removes the record, a get of `id` served right after responds 404
with the text `Item not found`, and so does a second delete, which changes
nothing; and the id a create has just returned is a key of the map, so that all
of this holds for it. -/
theorem delete_removes :
    (∀ (s : Store) (id : String), id ∈ s.items →
      (serve s (deleteReq id)).w.status = some 204
        ∧ (serve s (deleteReq id)).w.body = []
        ∧ id ∉ (serve s (deleteReq id)).store.items
        ∧ (serve (serve s (deleteReq id)).store (getReq id)).w.status = some 404
        ∧ (serve (serve s (deleteReq id)).store (getReq id)).w.body
            = [.text "Item not found\n"]
        ∧ (serve (serve s (deleteReq id)).store (deleteReq id)).w.status = some 404
        ∧ (serve (serve s (deleteReq id)).store (deleteReq id)).w.body
            = [.text "Item not found\n"]
        ∧ (serve (serve s (deleteReq id)).store (deleteReq id)).store
            = (serve s (deleteReq id)).store)
      ∧ (∀ (s : Store) (body : Item),
          assignedID s (createReq (.ok body)) = some (sprintfD s.nextID)
            ∧ sprintfD s.nextID ∈ (serve s (createReq (.ok body))).store.items) := by
  constructor
  · intro s id h
    obtain ⟨old, hold⟩ := Option.isSome_iff_exists.mp (AList.lookup_isSome.mpr h)
    obtain ⟨hs, hst, hb⟩ := delete_found s id old hold
    have hl : (⟨s.items.erase id, s.nextID⟩ : Store).items.lookup id = none := by
      simp [AList.lookup_erase]
    obtain ⟨_, gst, gb⟩ := get_missing ⟨s.items.erase id, s.nextID⟩ id hl
    obtain ⟨ds, dst, db⟩ := delete_missing ⟨s.items.erase id, s.nextID⟩ id hl
    refine ⟨hst, hb, ?_, ?_, ?_, ?_, ?_, ?_⟩
    · rw [hs]; exact AList.lookup_eq_none.mp hl
    · rw [hs]; exact gst
    · rw [hs]; exact gb
    · rw [hs]; exact dst
    · rw [hs]; exact db
    · rw [hs]; exact ds
  · intro s body
    refine ⟨?_, ?_⟩
    · rw [assignedID_eq]
      simp [isCreate, createReq, Except.isOk, Except.toBool]
    · rw [(create_ok s body).1]
      exact AList.lookup_isSome.mp (by rw [created_lookup]; rfl)

/-- An instance of the delete property: the record a create has just made is
deleted. -/
theorem delete_removes_witness :
    "1" ∈ (run Store.initial [createReq (.ok ⟨"", "pen"⟩)]).items
      ∧ (serve (run Store.initial [createReq (.ok ⟨"", "pen"⟩)]) (deleteReq "1")).w.status
          = some 204 :=
  ⟨by decide, (delete_removes.1 (run Store.initial [createReq (.ok ⟨"", "pen"⟩)]) "1"
    (by decide)).1⟩

/-! ## List -/

theorem range_loop_elems (l : List (Sigma fun _ : String => Item)) : ∀ acc : GoSlice Item,
    (l.foldl (fun acc kv => acc.append kv.2) acc).elems = acc.elems ++ l.map Sigma.snd := by
  induction l with
  | nil => intro acc; simp
  | cons kv l ih =>
    intro acc
    rw [List.foldl_cons, ih]
    cases acc <;> simp [GoSlice.append, GoSlice.elems]

theorem getItems_response (s : Store) :
    (serve s listReq).store = s ∧ (serve s listReq).w.status = some 200
      ∧ (serve s listReq).w.body = [.json (encodeItems
          (s.items.entries.foldl (fun acc kv => acc.append kv.2) none))] := by
  simp [serve_listReq, getItems, Exec.encode, Exec.write, Exec.headerSet, Exec.mutexLock,
    Exec.mutexUnlock, Exec.start]

/-- C6: on every store, list answers with the encoding of a slice whose elements
are, up to their order, the records of the map, one for each key: a record is
in the slice exactly when some key holds it, and the slice has as many elements
as the map has keys; the store is left as it was. From the initial store, after
the creates of `a` and `b` and the delete of the id `1` given to `a`, list
returns the one record made for `b`. -/
theorem getItems_lists_store :
    (∀ s : Store, ∃ itemList : GoSlice Item,
        (serve s listReq).w.body = [.json (encodeItems itemList)]
          ∧ itemList.elems.Perm (s.items.entries.map Sigma.snd)
          ∧ (∀ it : Item, it ∈ itemList.elems ↔ ∃ k : String, s.items.lookup k = some it)
          ∧ itemList.elems.length = s.items.keys.length
          ∧ (serve s listReq).store = s)
      ∧ (∀ a b : Item,
          assignedIDs Store.initial [createReq (.ok a), createReq (.ok b), deleteReq "1"]
              = ["1", "2"]
            ∧ (serve (run Store.initial [createReq (.ok a), createReq (.ok b), deleteReq "1"])
                listReq).w.body = [.json (.array [Item.toJSON ⟨"2", b.Name⟩])]) := by
  constructor
  · intro s
    obtain ⟨hs, _, hb⟩ := getItems_response s
    have he := range_loop_elems s.items.entries none
    rw [show GoSlice.elems (none : GoSlice Item) = [] from rfl, List.nil_append] at he
    refine ⟨_, hb, ?_, ?_, ?_, hs⟩
    · rw [he]
    · intro it
      rw [he]
      simp only [List.mem_map]
      constructor
      · rintro ⟨⟨k, v⟩, hmem, rfl⟩
        exact ⟨k, AList.mem_lookup_iff.mpr hmem⟩
      · rintro ⟨k, hmem⟩
        exact ⟨⟨k, it⟩, AList.mem_lookup_iff.mp hmem, rfl⟩
    · rw [he]
      simp [AList.keys, List.keys]
  · intro a b
    constructor
    · rfl
    · rfl

/-- C7 on the code: list responds 200 on every store, but on a store that holds
no record the slice `itemList` is still the nil slice it was declared as, and
the body is the JSON value `null`, which is not the empty JSON array. -/
theorem getItems_empty_store_null (n : Int) :
    (serve ⟨∅, n⟩ listReq).w.status = some 200
      ∧ (serve ⟨∅, n⟩ listReq).w.body = [.json .null]
      ∧ (serve ⟨∅, n⟩ listReq).w.body ≠ [.json (.array [])]
      ∧ (serve Store.initial listReq).w.body = [.json .null] := by
  obtain ⟨_, hst, hb⟩ := getItems_response ⟨∅, n⟩
  have hnull : (serve ⟨∅, n⟩ listReq).w.body = [.json .null] := by rw [hb]; rfl
  refine ⟨hst, hnull, ?_, rfl⟩
  rw [hnull]
  simp

/-! ## The empty id -/

theorem empty_not_mem_run (rs : List Request) : "" ∉ (run Store.initial rs).items := by
  intro h
  obtain ⟨⟨_, hkeys⟩, _⟩ := counted_run rs Store.initial 0 counted_initial
  obtain ⟨j, _, e⟩ := hkeys "" h
  exact sprintfD_ne_empty _ e.symm

/-- C8: in every store reached from the initial one by any sequence of
requests, the empty string is not a key of the map; a GET, a PUT with a
well-formed body and a DELETE on the path `/items/`, whose id is the empty
string, all respond 404 with the text `Item not found` and leave the store as
it was. -/
theorem empty_id_not_found (rs : List Request) (body : Item) :
    "" ∉ (run Store.initial rs).items
      ∧ (getReq "").Path = "/items/" ∧ (updateReq "" (.ok body)).Path = "/items/"
      ∧ (deleteReq "").Path = "/items/"
      ∧ (serve (run Store.initial rs) (getReq "")).w.status = some 404
      ∧ (serve (run Store.initial rs) (getReq "")).w.body = [.text "Item not found\n"]
      ∧ (serve (run Store.initial rs) (getReq "")).store = run Store.initial rs
      ∧ (serve (run Store.initial rs) (updateReq "" (.ok body))).w.status = some 404
      ∧ (serve (run Store.initial rs) (updateReq "" (.ok body))).w.body
          = [.text "Item not found\n"]
      ∧ (serve (run Store.initial rs) (updateReq "" (.ok body))).store = run Store.initial rs
      ∧ (serve (run Store.initial rs) (deleteReq "")).w.status = some 404
      ∧ (serve (run Store.initial rs) (deleteReq "")).w.body = [.text "Item not found\n"]
      ∧ (serve (run Store.initial rs) (deleteReq "")).store = run Store.initial rs := by
  have hmem := empty_not_mem_run rs
  have hl : (run Store.initial rs).items.lookup "" = none := AList.lookup_eq_none.mpr hmem
  obtain ⟨g1, g2, g3⟩ := get_missing _ "" hl
  obtain ⟨u1, u2, u3⟩ := update_missing _ "" body hl
  obtain ⟨d1, d2, d3⟩ := delete_missing _ "" hl
  exact ⟨hmem, rfl, rfl, rfl, g2, g3, g1, u2, u3, u1, d2, d3, d1⟩

/-! ## The span of the lock -/

/-- C9 on the code: `getItems`, `updateItem` and `deleteItem` defer
`mutex.Unlock()` and write their response before they return, that is, while
the mutex is held; `createItem` and `getItem` release it first. -/
theorem response_written_under_lock (s : Store) :
    (serve s listReq).log = [.lock, .setHeader, .writeBody, .unlock]
      ∧ noIOWhileLocked false (serve s listReq).log = false
      ∧ (∀ (id : String) (body : Item),
          noIOWhileLocked false (serve s (updateReq id (.ok body))).log = false)
      ∧ (∀ id : String, noIOWhileLocked false (serve s (deleteReq id)).log = false)
      ∧ (∀ body : Except String Item,
          noIOWhileLocked false (serve s (createReq body)).log = true)
      ∧ (∀ id : String, noIOWhileLocked false (serve s (getReq id)).log = true) := by
  have hlist : (serve s listReq).log = [.lock, .setHeader, .writeBody, .unlock] := by
    simp [serve_listReq, getItems, Exec.encode, Exec.write, Exec.headerSet, Exec.mutexLock,
      Exec.mutexUnlock, Exec.start]
  refine ⟨hlist, by rw [hlist]; rfl, ?_, ?_, ?_, ?_⟩
  · intro id body
    rw [serve_updateReq]
    rcases hl : s.items.lookup id with _ | old <;>
      simp [updateItem, updateReq, Exec.decode, hl, httpError, Exec.encode, Exec.write,
        Exec.writeHeader, Exec.headerSet, Exec.mutexLock, Exec.mutexUnlock, Exec.start,
        noIOWhileLocked]
  · intro id
    rw [serve_deleteReq]
    rcases hl : s.items.lookup id with _ | old <;>
      simp [deleteItem, hl, httpError, Exec.write, Exec.writeHeader, Exec.headerSet,
        Exec.mutexLock, Exec.mutexUnlock, Exec.start, noIOWhileLocked]
  · intro body
    rw [serve_createReq]
    rcases body with err | it <;>
      simp [createItem, createReq, Exec.decode, httpError, Exec.encode, Exec.write,
        Exec.writeHeader, Exec.headerSet, Exec.mutexLock, Exec.mutexUnlock, Exec.start,
        noIOWhileLocked]
  · intro id
    rw [serve_getReq]
    rcases hl : s.items.lookup id with _ | old <;>
      simp [getItem, hl, httpError, Exec.encode, Exec.write, Exec.writeHeader,
        Exec.headerSet, Exec.mutexLock, Exec.mutexUnlock, Exec.start, noIOWhileLocked]

/-! ## Requests that fail, requests that read -/

/-- C10: whatever the store and the request, when the response status is 400,
404 or 405, or when the method is GET (list and get), the map and the counter
after the request are those before it. -/
theorem failed_or_read_request_leaves_store (s : Store) (r : Request)
    (h : (serve s r).w.status = some 400 ∨ (serve s r).w.status = some 404
      ∨ (serve s r).w.status = some 405 ∨ r.Method = "GET") :
    (serve s r).store = s := by
  revert h
  by_cases h1 : r.Path = "/items"
  · by_cases h3 : r.Method = "GET"
    · simp [serve, serveMux, itemsHandler, h1, h3, getItems, Exec.encode, Exec.write,
        Exec.headerSet, Exec.mutexLock, Exec.mutexUnlock, Exec.start]
    · by_cases h4 : r.Method = "POST"
      · rcases hb : r.Body with err | it
        · simp [serve, serveMux, itemsHandler, h1, h4, createItem, Exec.decode, hb, httpError,
            Exec.write, Exec.writeHeader, Exec.headerSet, Exec.start]
        · simp [serve, serveMux, itemsHandler, h1, h4, createItem, Exec.decode, hb,
            Exec.write, Exec.writeHeader, Exec.encode, Exec.mutexLock, Exec.mutexUnlock,
            Exec.start]
      · simp [serve, serveMux, itemsHandler, h1, h3, h4, httpError, Exec.write,
          Exec.writeHeader, Exec.headerSet, Exec.start]
  · by_cases h2 : hasPrefix r.Path "/items/" = true
    · by_cases h3 : r.Method = "GET"
      · rcases hl : s.items.lookup (r.Path.drop "/items/".length) with _ | old
        · simp [serve, serveMux, itemHandler, h1, h2, h3, getItem, hl, httpError, Exec.write,
            Exec.writeHeader, Exec.headerSet, Exec.start, Exec.mutexLock, Exec.mutexUnlock]
        · simp [serve, serveMux, itemHandler, h1, h2, h3, getItem, hl, Exec.write,
            Exec.encode, Exec.headerSet, Exec.start, Exec.mutexLock, Exec.mutexUnlock]
      · by_cases h4 : r.Method = "PUT"
        · rcases hb : r.Body with err | it
          · simp [serve, serveMux, itemHandler, h1, h2, h4, updateItem, Exec.decode, hb,
              httpError, Exec.write, Exec.writeHeader, Exec.headerSet, Exec.start]
          · rcases hl : s.items.lookup (r.Path.drop "/items/".length) with _ | old
            · simp [serve, serveMux, itemHandler, h1, h2, h4, updateItem, Exec.decode, hb,
                httpError, Exec.write, Exec.writeHeader, Exec.headerSet, Exec.start,
                Exec.mutexLock, Exec.mutexUnlock, hl]
            · simp [serve, serveMux, itemHandler, h1, h2, h4, updateItem, Exec.decode, hb,
                Exec.write, Exec.encode, Exec.headerSet, Exec.start, Exec.mutexLock,
                Exec.mutexUnlock, hl]
        · by_cases h5 : r.Method = "DELETE"
          · rcases hl : s.items.lookup (r.Path.drop "/items/".length) with _ | old
            · simp [serve, serveMux, itemHandler, h1, h2, h5, deleteItem, httpError,
                Exec.write, Exec.writeHeader, Exec.headerSet, Exec.start, Exec.mutexLock,
                Exec.mutexUnlock, hl]
            · simp [serve, serveMux, itemHandler, h1, h2, h5, deleteItem, Exec.writeHeader,
                Exec.start, Exec.mutexLock, Exec.mutexUnlock, hl]
          · simp [serve, serveMux, itemHandler, h1, h2, h3, h4, h5, httpError, Exec.write,
              Exec.writeHeader, Exec.headerSet, Exec.start]
    · simp [serve, serveMux, h1, h2, httpError, Exec.write, Exec.writeHeader,
        Exec.headerSet, Exec.start]

/-- An instance of the property of failed requests: an update of an id that is
absent, on a store that holds one record. -/
theorem failed_or_read_request_leaves_store_witness :
    ((serve (run Store.initial [createReq (.ok ⟨"", "pen"⟩)])
          (updateReq "2" (.ok ⟨"", "ink"⟩))).w.status = some 400
        ∨ (serve (run Store.initial [createReq (.ok ⟨"", "pen"⟩)])
          (updateReq "2" (.ok ⟨"", "ink"⟩))).w.status = some 404
        ∨ (serve (run Store.initial [createReq (.ok ⟨"", "pen"⟩)])
          (updateReq "2" (.ok ⟨"", "ink"⟩))).w.status = some 405
        ∨ (updateReq "2" (.ok ⟨"", "ink"⟩)).Method = "GET")
      ∧ (serve (run Store.initial [createReq (.ok ⟨"", "pen"⟩)])
          (updateReq "2" (.ok ⟨"", "ink"⟩))).store
          = run Store.initial [createReq (.ok ⟨"", "pen"⟩)] :=
  ⟨by decide, failed_or_read_request_leaves_store _ _ (by decide)⟩

end ItemService
